import Mathlib

/-!
A verification development for the SQL composition and execution layer in
`src/lib/database.ts` (statement builder, dialect resolvers, table helper).

JavaScript strings are modelled as `List Char` (`JSStr`); all string
operations used by the source (`slice`, `startsWith`, `endsWith`,
`toUpperCase`, `+=`) are defined below on that representation.  JavaScript
numbers appear in this layer only as integral SQL values, so they are
modelled as `Int`.
-/

deriving instance DecidableEq for Except

/-- JavaScript string, as a list of its characters. -/
abbrev JSStr := List Char

/-- The backquote character (written via its code point). -/
def bq : Char := Char.ofNat 96

/-- JS `s.slice(0, -n)`: drop the final `n` characters, clamping at the
empty string. -/
def dropRightN (s : JSStr) (n : Nat) : JSStr := s.take (s.length - n)

/-- JS `'\x60'.includes(c) || ...`, specialised: does the (string) argument
start with a backquote or a double quote?  Models
`frag.startsWith('\x60') || frag.startsWith('"')`. -/
def startsQuoteB (s : JSStr) : Bool := s.head? == some bq || s.head? == some '"'

/-- JS `f.toUpperCase().endsWith(' SET ')` (ASCII content only in this
code base, so per-character uppercasing is faithful). -/
def isSetSuffix (f : JSStr) : Bool := (" SET ".toList).isSuffixOf (f.map Char.toUpper)

/-- Apply `f` to the last element of a list (identity on `[]`).  Models the
JS idiom `a[a.length - 1] = f(a[a.length - 1])`; on an empty JS array that
assignment stores nothing visible to later `a[a.length - 1]` reads in this
code base (the fragment list is never empty in practice), so identity is
faithful here. -/
def modifyLast (f : JSStr → JSStr) : List JSStr → List JSStr
  | [] => []
  | [x] => [f x]
  | x :: y :: xs => x :: modifyLast f (y :: xs)

/-- A basic SQL value: `string | number | null` (`BasicSQLValue` in the
source). -/
inductive BasicSQLValue where
  | str (s : JSStr)
  | num (n : Int)
  | null
deriving DecidableEq, Repr

/-- JS template-literal stringification of a basic value
(`interpolation of value into a template string`). -/
def BasicSQLValue.toJSString : BasicSQLValue → JSStr
  | .str s => s
  | .num n => (toString n).toList
  | .null => "null".toList

/-- `class SQLStatement` (lines 81-153): an ordered list of literal SQL
fragments (`sql`) interleaved with bound parameters (`values`). -/
structure SQLStatement where
  sql : List JSStr
  values : List BasicSQLValue
deriving DecidableEq, Repr

/-- JS `this.sql[this.sql.length - 1]` (the current last fragment). -/
def SQLStatement.lastFrag (st : SQLStatement) : JSStr := (st.sql.getLast?).getD []

/-- Replace the last fragment by `f` of itself. -/
def SQLStatement.mapLastFrag (st : SQLStatement) (f : JSStr → JSStr) : SQLStatement :=
  ⟨modifyLast f st.sql, st.values⟩

/-- `SQLStatement.appendRaw` (lines 91-94): concatenate literal text onto
the current last fragment. -/
def SQLStatement.appendRaw (st : SQLStatement) (s : JSStr) : SQLStatement :=
  st.mapLastFrag (· ++ s)

/-- The scalar branch of `append` (lines 101-103): push the value onto
`values` and push a new empty fragment. -/
def SQLStatement.pushScalar (st : SQLStatement) (v : BasicSQLValue) : SQLStatement :=
  ⟨st.sql ++ [[]], st.values ++ [v]⟩

/-- A value of `PartialOrSQL<SQLRow>`: each object value is a basic SQL
value or a nested statement (`T[P] | SQLStatement`). -/
inductive RowVal where
  | basic (v : BasicSQLValue)
  | stmt (s : SQLStatement)

/-- `SQLValue` (lines 62-63):
`BasicSQLValue | SQLStatement | SQLStatement[] | PartialOrSQL<SQLRow> | BasicSQLValue[] | undefined`. -/
inductive SQLValue where
  | basic (v : BasicSQLValue)
  | stmt (s : SQLStatement)
  | stmtArray (ss : List SQLStatement)
  | basicArray (vs : List BasicSQLValue)
  | obj (kvs : List (JSStr × RowVal))
  | undef

/-- The nested-statement branch of `append` (lines 96-100): an empty nested
statement is a no-op; otherwise concatenate its first fragment onto the
current last fragment, then concatenate the remaining fragments and all the
parameters. -/
def appendStmt (st : SQLStatement) (s : SQLStatement) : SQLStatement :=
  match s.sql with
  | [] => st
  | f :: rest =>
    let st' := st.appendRaw f
    ⟨st'.sql ++ rest, st'.values ++ s.values⟩

/-- Lines 107-109: `for (const part of value) this.append(part)` on an
array of statements (each iteration takes the nested-statement branch). -/
def appendStmtList (st : SQLStatement) : List SQLStatement → SQLStatement
  | [] => st
  | s :: ss => appendStmtList (appendStmt st s) ss

/-- Lines 112-115: the quoted identifier-list loop
`this.append(col).appendRaw(quoteChar + ", " + quoteChar)`; each element is
a basic value so `append` takes the scalar branch. -/
def appendQuoteLoop (sep : JSStr) (st : SQLStatement) : List BasicSQLValue → SQLStatement
  | [] => st
  | v :: vs => appendQuoteLoop sep ((st.pushScalar v).appendRaw sep) vs

/-- Lines 119-121: the value-list loop `this.append(val).appendRaw(", ")`. -/
def appendCommaLoop (st : SQLStatement) : List BasicSQLValue → SQLStatement
  | [] => st
  | v :: vs => appendCommaLoop ((st.pushScalar v).appendRaw (", ".toList)) vs

/-- Lines 127-129: the object-key loop `this.append(col).appendRaw('", "')`
(keys are strings, so `append` takes the scalar branch). -/
def appendParenKeys (st : SQLStatement) : List (JSStr × RowVal) → SQLStatement
  | [] => st
  | (k, _) :: kvs => appendParenKeys ((st.pushScalar (.str k)).appendRaw ("\", \"".toList)) kvs

/-- `this.append(v)` on an object value: scalar branch for a basic value,
nested-statement branch for a statement. -/
def appendRowVal (st : SQLStatement) : RowVal → SQLStatement
  | .basic v => st.pushScalar v
  | .stmt s => appendStmt st s

/-- Lines 131-134: the object-value loop
`this.append(value[col]).appendRaw(", ")`. -/
def appendParenVals (st : SQLStatement) : List (JSStr × RowVal) → SQLStatement
  | [] => st
  | (_, v) :: kvs => appendParenVals ((appendRowVal st v).appendRaw (", ".toList)) kvs

/-- Lines 139-143: the `SET` assignment-list loop
`this.append(col).appendRaw('" = '); this.append(value[col]).appendRaw(', "')`. -/
def appendSetPairs (st : SQLStatement) : List (JSStr × RowVal) → SQLStatement
  | [] => st
  | (k, v) :: kvs =>
    appendSetPairs ((appendRowVal ((st.pushScalar (.str k)).appendRaw ("\" = ".toList)) v).appendRaw (", \"".toList)) kvs

/-- JS `'"\x60'.includes(lastFrag.slice(-1))` (line 110) together with the
quote character it selects: `slice(-1)` of an empty string is the empty
string and `includes('')` is `true`, so an empty last fragment selects the
quoted branch with an empty quote string. -/
def quoteSliceM (lastFrag : JSStr) : Option JSStr :=
  match lastFrag.getLast? with
  | none => some []
  | some c => if c == '"' || c == bq then some [c] else none

/-- The composition error thrown on line 146-149:
`Objects can only appear in (obj) or after SET; unrecognized: <frag>[obj]`. -/
def objError (lastFrag : JSStr) : JSStr :=
  ("Objects can only appear in (obj) or after SET; unrecognized: ".toList) ++ lastFrag ++ ("[obj]".toList)

/-- `SQLStatement.append` (lines 95-152).  The dispatch on the dynamic type
of `value` is the match on the `SQLValue` constructors; per the source type
`SQLValue`, an array is an array of statements or an array of basic values
(the JS test `!value.length || isSQL(value[0])` holds exactly for an array
of statements or an empty array, and an empty basic-value array makes every
loop a no-op, so routing the empty basic array through the first branch is
faithful).  Only the object branch can fail. -/
def SQLStatement.append (st : SQLStatement) : SQLValue → Except JSStr SQLStatement
  | .stmt s => .ok (appendStmt st s)
  | .basic v => .ok (st.pushScalar v)
  | .undef => .ok st
  | .stmtArray ss => .ok (appendStmtList st ss)
  | .basicArray vs =>
    .ok <|
      if vs.isEmpty then st
      else
        match quoteSliceM st.lastFrag with
        | some qc => (appendQuoteLoop (qc ++ ", ".toList ++ qc) st vs).mapLastFrag (fun f => dropRightN f 4)
        | none => (appendCommaLoop st vs).mapLastFrag (fun f => dropRightN f 2)
  | .obj kvs =>
    if st.lastFrag.getLast? == some '(' then
      .ok ((appendParenVals
              ((appendParenKeys (st.appendRaw ['"']) kvs).mapLastFrag
                (fun f => dropRightN f 4 ++ ("\") VALUES (".toList))) kvs).mapLastFrag
            (fun f => dropRightN f 2))
    else if isSetSuffix st.lastFrag then
      .ok ((appendSetPairs (st.appendRaw ['"']) kvs).mapLastFrag (fun f => dropRightN f 3))
    else
      .error (objError st.lastFrag)

/-- The constructor loop of `SQLStatement` (lines 87-89):
`this.append(values[i]).appendRaw(strings[i + 1])` for each remaining
literal segment; a missing value reads as `undefined` (a no-op append) and
extra values are ignored. -/
def mkStatementGo (st : SQLStatement) : List JSStr → List SQLValue → Except JSStr SQLStatement
  | [], _ => .ok st
  | s :: rest, [] => do mkStatementGo ((← st.append .undef).appendRaw s) rest []
  | s :: rest, v :: vs => do mkStatementGo ((← st.append v).appendRaw s) rest vs

/-- `new SQLStatement(strings, values)` (lines 84-90): the first literal
segment becomes the initial fragment, then each value is appended followed
by the next literal segment.  (Every call site passes at least one
segment.) -/
def mkStatement (strings : List JSStr) (values : List SQLValue) : Except JSStr SQLStatement :=
  mkStatementGo ⟨[strings.headD []], []⟩ (strings.drop 1) values

/-- `mysql.escapeId` / `pg.escapeIdentifier` core: double every occurrence
of the quote character (`id.replace(/q/g, 'qq')`). -/
def escChars (qc : Char) : JSStr → JSStr
  | [] => []
  | c :: cs => if c = qc then qc :: qc :: escChars qc cs else c :: escChars qc cs

/-- `mysql.escapeId` (lines 32-35): backquote quoting with doubling of
embedded backquotes. -/
def mysqlEscapeId (id : JSStr) : JSStr := bq :: escChars bq id ++ [bq]

/-- `pg.escapeIdentifier` (lines 50-53): double-quote quoting with doubling
of embedded double quotes. -/
def pgEscapeIdentifier (id : JSStr) : JSStr := '"' :: escChars '"' id ++ ['"']

/-- The loop of `MySQLDatabase._resolveSQL` (lines 389-402).  `sqlAcc` is
the SQL text built so far, `acc` the emitted parameters, and `frags` the
fragments following the values still to process (`query.sql[i + 1]`). -/
def mysqlResolveGo (sqlAcc : JSStr) (acc : List BasicSQLValue) :
    List BasicSQLValue → List JSStr → JSStr × List BasicSQLValue
  | [], _ => (sqlAcc, acc)
  | v :: vs, frags =>
    let next := frags.headD []
    if startsQuoteB next then
      mysqlResolveGo (dropRightN sqlAcc 1 ++ mysqlEscapeId v.toJSString ++ next.drop 1) acc vs frags.tail
    else
      mysqlResolveGo (sqlAcc ++ '?' :: next) (acc ++ [v]) vs frags.tail

/-- `MySQLDatabase._resolveSQL` (lines 389-402): walk fragments and values
in lock-step; a following fragment that starts with a quote glyph makes the
value an inline escaped identifier, otherwise a `?` placeholder is emitted
and the value is pushed onto the returned parameter list. -/
def mysqlResolveSQL (q : SQLStatement) : JSStr × List BasicSQLValue :=
  mysqlResolveGo (q.sql.headD []) [] q.values (q.sql.drop 1)

/-- The loop of `PGDatabase._resolveSQL` (lines 434-448), carrying
`paramCount`. -/
def pgResolveGo (sqlAcc : JSStr) (acc : List BasicSQLValue) (paramCount : Nat) :
    List BasicSQLValue → List JSStr → JSStr × List BasicSQLValue
  | [], _ => (sqlAcc, acc)
  | v :: vs, frags =>
    let next := frags.headD []
    if startsQuoteB next then
      pgResolveGo (dropRightN sqlAcc 1 ++ pgEscapeIdentifier v.toJSString ++ next.drop 1) acc paramCount vs frags.tail
    else
      pgResolveGo (sqlAcc ++ ('$' :: (toString (paramCount + 1)).toList) ++ next) (acc ++ [v]) (paramCount + 1) vs frags.tail

/-- `PGDatabase._resolveSQL` (lines 434-448): like the MySQL resolver but
with numbered `$1, $2, ...` placeholders and double-quote identifier
escaping. -/
def pgResolveSQL (q : SQLStatement) : JSStr × List BasicSQLValue :=
  pgResolveGo (q.sql.headD []) [] 0 q.values (q.sql.drop 1)

/-- `class DatabaseTable` (lines 231-243): `name` is already prefixed
(`db.prefix + name`, line 241) and `primaryKeyName` is the optional
single-column primary key. -/
structure DatabaseTable where
  name : JSStr
  primaryKeyName : Option JSStr

/-- `Database.getTable` composition with the connection's table-name
text: the table stores `tablePrefix ++ name` (line 241). -/
def makeTable (tablePrefix name : JSStr) (pk : Option JSStr) : DatabaseTable :=
  ⟨tablePrefix ++ name, pk⟩

/-- Lift an optional trailing clause: an omitted `where` argument reads as
`undefined` inside the template (a no-op append). -/
def optStmt : Option SQLStatement → SQLValue
  | none => .undef
  | some s => .stmt s

/-- A `PartialOrSQL<Row>` object as interpolated into a template. -/
def rowObj (row : List (JSStr × RowVal)) : SQLValue := .obj row

/-- `DatabaseTable.insert` (lines 320-322), composition part:
`INSERT INTO "<name>" (<row>) <where>`. -/
def tableInsertStatement (t : DatabaseTable) (row : List (JSStr × RowVal))
    (whereClause : Option SQLStatement) : Except JSStr SQLStatement :=
  mkStatement ["INSERT INTO \"".toList, "\" (".toList, ") ".toList, []]
    [.basic (.str t.name), rowObj row, optStmt whereClause]

/-- The `entries` argument of `selectAll`/`selectOne`: omitted, a column
list, or a ready statement. -/
def entriesStatement : Option (List JSStr ⊕ SQLStatement) → Except JSStr SQLStatement
  | none => mkStatement ["*".toList] []
  | some (.inl cols) => mkStatement ["\"".toList, "\"".toList] [.basicArray (cols.map .str)]
  | some (.inr s) => .ok s

/-- `DatabaseTable.selectOne` (lines 278-284), composition part:
`SELECT <entries> FROM "<name>" <clause> LIMIT 1`. -/
def selectOneStatement (t : DatabaseTable) (entries : Option (List JSStr ⊕ SQLStatement))
    (clause : SQLStatement) : Except JSStr SQLStatement := do
  let e ← entriesStatement entries
  mkStatement ["SELECT ".toList, " FROM \"".toList, "\" ".toList, " LIMIT 1".toList]
    [.stmt e, .basic (.str t.name), .stmt clause]

/-- `DatabaseTable.deleteAll` (lines 298-302), composition part:
`DELETE FROM "<name>" <clause>`. -/
def deleteAllStatement (t : DatabaseTable) (clause : SQLStatement) : Except JSStr SQLStatement :=
  mkStatement ["DELETE FROM \"".toList, "\" ".toList, []]
    [.basic (.str t.name), .stmt clause]

/-- `DatabaseTable.updateAll` (lines 286-290), composition part:
`UPDATE "<name>" SET <row> <clause>`. -/
def updateAllStatement (t : DatabaseTable) (row : List (JSStr × RowVal))
    (clause : SQLStatement) : Except JSStr SQLStatement :=
  mkStatement ["UPDATE \"".toList, "\" SET ".toList, " ".toList, []]
    [.basic (.str t.name), rowObj row, .stmt clause]

/-- The keyed `WHERE` clause composed by `get`/`delete`/`update`:
`WHERE "<pk>" = <primaryKey>`. -/
def pkWhereClause (pk : JSStr) (primaryKey : BasicSQLValue) : Except JSStr SQLStatement :=
  mkStatement ["WHERE \"".toList, "\" = ".toList, []]
    [.basic (.str pk), .basic primaryKey]

/-- `DatabaseTable.get` (lines 359-362): the guard `!this.primaryKeyName`
is a JS falsy test, so it throws for a null and also for an empty-string
primary-key name; otherwise the keyed `selectOne` composition. -/
def tableGet (t : DatabaseTable) (primaryKey : BasicSQLValue)
    (entries : Option (List JSStr ⊕ SQLStatement)) : Except JSStr SQLStatement :=
  match t.primaryKeyName with
  | none => .error ("Cannot get() without a single-column primary key".toList)
  | some pk =>
    if pk.isEmpty then .error ("Cannot get() without a single-column primary key".toList)
    else do
      selectOneStatement t entries (← pkWhereClause pk primaryKey)

/-- `DatabaseTable.delete` (lines 364-367): the guard `!this.primaryKeyName`
is a JS falsy test (null or empty-string name throws); otherwise the keyed
`deleteAll` composition. -/
def tableDelete (t : DatabaseTable) (primaryKey : BasicSQLValue) : Except JSStr SQLStatement :=
  match t.primaryKeyName with
  | none => .error ("Cannot delete() without a single-column primary key".toList)
  | some pk =>
    if pk.isEmpty then .error ("Cannot delete() without a single-column primary key".toList)
    else do
      deleteAllStatement t (← pkWhereClause pk primaryKey)

/-- `DatabaseTable.update` (lines 369-372): the guard `!this.primaryKeyName`
is a JS falsy test (null or empty-string name throws); otherwise the keyed
`updateAll` composition. -/
def tableUpdate (t : DatabaseTable) (primaryKey : BasicSQLValue)
    (data : List (JSStr × RowVal)) : Except JSStr SQLStatement :=
  match t.primaryKeyName with
  | none => .error ("Cannot update() without a single-column primary key".toList)
  | some pk =>
    if pk.isEmpty then .error ("Cannot update() without a single-column primary key".toList)
    else do
      updateAllStatement t data (← pkWhereClause pk primaryKey)

/-- A JS error object as visible to this layer: a message and an optional
driver error `code` property.  A plain `new Error(msg)` has no `code`. -/
structure JSError where
  message : JSStr
  code : Option JSStr
deriving DecidableEq, Repr

/-- JS stringification of the `values` array inside a template:
`Array.prototype.toString` joins the elements with commas, and a `null`
element is rendered as the empty string (unlike direct template
interpolation of `null`). -/
def valuesToJSString (vs : List BasicSQLValue) : JSStr :=
  (vs.map fun v => match v with
    | .null => []
    | v => v.toJSString).intersperse (",".toList) |>.flatten

/-- JS stringification of an optional `code` (an absent property reads as
`undefined`). -/
def codeToJSString : Option JSStr → JSStr
  | none => "undefined".toList
  | some c => c

/-- `MySQLDatabase._query` error wrapping (lines 403-420): a driver error
`e` is replaced by `new Error(e.message + " (" + query + ") (" + values +
") [" + e.code + "]")` — a fresh `Error` carrying no `code` property. -/
def mysqlQueryOutcome {α : Type} (query : JSStr) (vals : List BasicSQLValue)
    (driver : Except JSError α) : Except JSError α :=
  match driver with
  | .ok r => .ok r
  | .error e =>
    .error ⟨e.message ++ " (".toList ++ query ++ ") (".toList ++ valuesToJSString vals
            ++ ") [".toList ++ codeToJSString e.code ++ "]".toList, none⟩

/-- `DatabaseTable.tryInsert` (lines 328-337): await the insert; on an
error whose `code` property is `'ER_DUP_ENTRY'` return `undefined`,
otherwise rethrow. -/
def tryInsertOutcome {α : Type} (insertResult : Except JSError α) : Except JSError (Option α) :=
  match insertResult with
  | .ok r => .ok (some r)
  | .error err =>
    if err.code == some ("ER_DUP_ENTRY".toList) then .ok none else .error err

/-- The state of a pooled connection as far as `close()` observes it:
whether the object has an `end` method, and whether `end()` has been
invoked (the release of the pooled resource). -/
structure ConnectionPool where
  hasEnd : Bool
  ended : Bool
deriving DecidableEq, Repr

/-- The `Database` constructor (lines 177-181): the new connection is
pushed onto the process-wide `connectedDatabases` list (database objects
identified here by an id). -/
def databaseConstruct (connectedDatabases : List Nat) (dbId : Nat) : List Nat :=
  connectedDatabases ++ [dbId]

/-- `Database.close` (lines 217-221):
`if (this.connection?.end) void this.connection.end();` — the pooled
resource is released if present; the `connectedDatabases` list is not
touched. -/
def databaseClose (connectedDatabases : List Nat) (pool : ConnectionPool) :
    List Nat × ConnectionPool :=
  (connectedDatabases, if pool.hasEnd then { pool with ended := true } else pool)

/-! ### The fragment/parameter length invariant -/

/-- The statement invariant: one more fragment than parameters. -/
def SQLStatement.inv (st : SQLStatement) : Prop := st.sql.length = st.values.length + 1

/-- A nested statement fed to `append` either is empty (a no-op append) or
satisfies the length invariant. -/
def stmtWf (s : SQLStatement) : Bool := s.sql.isEmpty || s.sql.length == s.values.length + 1

/-- Well-formedness of an object value. -/
def RowVal.wf : RowVal → Bool
  | .basic _ => true
  | .stmt s => stmtWf s

/-- Well-formedness of an appended value: every statement embedded in it is
empty or satisfies the length invariant. -/
def SQLValue.wf : SQLValue → Bool
  | .basic _ => true
  | .undef => true
  | .stmt s => stmtWf s
  | .stmtArray ss => ss.all stmtWf
  | .basicArray _ => true
  | .obj kvs => kvs.all (fun kv => kv.2.wf)

theorem modifyLast_length (f : JSStr → JSStr) : ∀ l, (modifyLast f l).length = l.length
  | [] => rfl
  | [_] => rfl
  | _ :: y :: xs => by simp only [modifyLast, List.length_cons, modifyLast_length f (y :: xs)]

theorem mapLastFrag_sql_length (st : SQLStatement) (f : JSStr → JSStr) :
    (st.mapLastFrag f).sql.length = st.sql.length := modifyLast_length f st.sql

theorem mapLastFrag_values (st : SQLStatement) (f : JSStr → JSStr) :
    (st.mapLastFrag f).values = st.values := rfl

theorem mapLastFrag_inv (st : SQLStatement) (f : JSStr → JSStr) (h : st.inv) :
    (st.mapLastFrag f).inv := by
  simpa [SQLStatement.inv, mapLastFrag_sql_length, mapLastFrag_values] using h

theorem appendRaw_inv (st : SQLStatement) (s : JSStr) (h : st.inv) : (st.appendRaw s).inv :=
  mapLastFrag_inv st _ h

theorem pushScalar_inv (st : SQLStatement) (v : BasicSQLValue) (h : st.inv) :
    (st.pushScalar v).inv := by
  simp only [SQLStatement.inv, SQLStatement.pushScalar, List.length_append, List.length_cons,
    List.length_nil] at h ⊢
  omega

theorem appendStmt_inv (st s : SQLStatement) (h : st.inv) (hs : stmtWf s = true) :
    (appendStmt st s).inv := by
  match hsql : s.sql with
  | [] => simpa [appendStmt, hsql] using h
  | f :: rest =>
    have hlen : s.sql.length = s.values.length + 1 := by
      simp only [stmtWf, hsql, List.isEmpty_cons, Bool.false_or, beq_iff_eq] at hs
      simpa [hsql] using hs
    simp only [appendStmt, hsql]
    simp only [SQLStatement.inv, SQLStatement.appendRaw, SQLStatement.mapLastFrag,
      List.length_append, modifyLast_length] at h ⊢
    simp only [hsql, List.length_cons] at hlen
    omega

theorem appendStmtList_inv : ∀ (ss : List SQLStatement) (st : SQLStatement), st.inv →
    (∀ s ∈ ss, stmtWf s = true) → (appendStmtList st ss).inv
  | [], _, h, _ => h
  | s :: ss, st, h, hall => by
    refine appendStmtList_inv ss _ (appendStmt_inv st s h (hall s (by simp))) ?_
    exact fun s' hs' => hall s' (by simp [hs'])

theorem appendQuoteLoop_inv : ∀ (vs : List BasicSQLValue) (sep : JSStr) (st : SQLStatement),
    st.inv → (appendQuoteLoop sep st vs).inv
  | [], _, _, h => h
  | v :: vs, sep, st, h =>
    appendQuoteLoop_inv vs sep _ (appendRaw_inv _ _ (pushScalar_inv st v h))

theorem appendCommaLoop_inv : ∀ (vs : List BasicSQLValue) (st : SQLStatement),
    st.inv → (appendCommaLoop st vs).inv
  | [], _, h => h
  | v :: vs, st, h =>
    appendCommaLoop_inv vs _ (appendRaw_inv _ _ (pushScalar_inv st v h))

theorem appendParenKeys_inv : ∀ (kvs : List (JSStr × RowVal)) (st : SQLStatement),
    st.inv → (appendParenKeys st kvs).inv
  | [], _, h => h
  | (k, _) :: kvs, st, h =>
    appendParenKeys_inv kvs _ (appendRaw_inv _ _ (pushScalar_inv st (.str k) h))

theorem appendRowVal_inv (st : SQLStatement) (v : RowVal) (h : st.inv) (hv : v.wf = true) :
    (appendRowVal st v).inv := by
  cases v with
  | basic b => exact pushScalar_inv st b h
  | stmt s => exact appendStmt_inv st s h (by simpa [RowVal.wf] using hv)

theorem appendParenVals_inv : ∀ (kvs : List (JSStr × RowVal)) (st : SQLStatement),
    st.inv → (∀ kv ∈ kvs, (Prod.snd kv).wf = true) → (appendParenVals st kvs).inv
  | [], _, h, _ => h
  | (k, v) :: kvs, st, h, hall => by
    refine appendParenVals_inv kvs _ (appendRaw_inv _ _ (appendRowVal_inv st v h (hall (k, v) (by simp)))) ?_
    exact fun kv hkv => hall kv (by simp [hkv])

theorem appendSetPairs_inv : ∀ (kvs : List (JSStr × RowVal)) (st : SQLStatement),
    st.inv → (∀ kv ∈ kvs, (Prod.snd kv).wf = true) → (appendSetPairs st kvs).inv
  | [], _, h, _ => h
  | (k, v) :: kvs, st, h, hall => by
    refine appendSetPairs_inv kvs _ (appendRaw_inv _ _ (appendRowVal_inv _ v
      (appendRaw_inv _ _ (pushScalar_inv st (.str k) h)) (hall (k, v) (by simp)))) ?_
    exact fun kv hkv => hall kv (by simp [hkv])

/-- `append` preserves the length invariant whenever it succeeds. -/
theorem append_inv (st : SQLStatement) (v : SQLValue) (st' : SQLStatement)
    (h : st.inv) (hv : v.wf = true) (hok : st.append v = .ok st') : st'.inv := by
  cases v with
  | basic b =>
    cases hok; exact pushScalar_inv st b h
  | stmt s =>
    cases hok; exact appendStmt_inv st s h (by simpa [SQLValue.wf] using hv)
  | undef => cases hok; exact h
  | stmtArray ss =>
    cases hok
    have hv' : ss.all stmtWf = true := hv
    exact appendStmtList_inv ss st h (fun s hs => List.all_eq_true.mp hv' s hs)
  | basicArray vs =>
    simp only [SQLStatement.append] at hok
    cases hok
    by_cases hvs : vs.isEmpty
    · simpa [hvs] using h
    · simp only [hvs, if_false]
      cases hq : quoteSliceM st.lastFrag with
      | some qc => exact mapLastFrag_inv _ _ (appendQuoteLoop_inv vs _ st h)
      | none => exact mapLastFrag_inv _ _ (appendCommaLoop_inv vs st h)
  | obj kvs =>
    have hv' : kvs.all (fun kv => kv.2.wf) = true := hv
    have hall : ∀ kv ∈ kvs, (Prod.snd kv).wf = true :=
      fun kv hkv => List.all_eq_true.mp hv' kv hkv
    simp only [SQLStatement.append] at hok
    by_cases hp : st.lastFrag.getLast? == some '('
    · simp only [hp, if_true] at hok
      cases hok
      exact mapLastFrag_inv _ _ (appendParenVals_inv kvs _
        (mapLastFrag_inv _ _ (appendParenKeys_inv kvs _ (appendRaw_inv st _ h))) hall)
    · simp only [hp, if_false] at hok
      by_cases hset : isSetSuffix st.lastFrag
      · simp only [hset, if_true] at hok
        cases hok
        exact mapLastFrag_inv _ _ (appendSetPairs_inv kvs _ (appendRaw_inv st _ h) hall)
      · simp [hset] at hok

theorem mkStatementGo_inv : ∀ (rest : List JSStr) (vs : List SQLValue) (st q : SQLStatement),
    st.inv → (∀ v ∈ vs, v.wf = true) → mkStatementGo st rest vs = .ok q → q.inv
  | [], _, _, _, h, _, hok => by cases hok; exact h
  | s :: rest, [], st, q, h, _, hok => by
    simp only [mkStatementGo] at hok
    cases happ : st.append .undef with
    | error e =>
      rw [happ] at hok
      exact absurd (show (Except.error e : Except JSStr SQLStatement) = .ok q from hok) (by simp)
    | ok st1 =>
      rw [happ] at hok
      replace hok : mkStatementGo (st1.appendRaw s) rest [] = .ok q := hok
      exact mkStatementGo_inv rest [] _ q
        (appendRaw_inv _ _ (append_inv st _ st1 h (show SQLValue.undef.wf = true from rfl) happ))
        (by simp) hok
  | s :: rest, v :: vs, st, q, h, hall, hok => by
    simp only [mkStatementGo] at hok
    cases happ : st.append v with
    | error e =>
      rw [happ] at hok
      exact absurd (show (Except.error e : Except JSStr SQLStatement) = .ok q from hok) (by simp)
    | ok st1 =>
      rw [happ] at hok
      replace hok : mkStatementGo (st1.appendRaw s) rest vs = .ok q := hok
      exact mkStatementGo_inv rest vs _ q
        (appendRaw_inv _ _ (append_inv st _ st1 h (hall v (by simp)) happ))
        (fun v' hv' => hall v' (by simp [hv'])) hok

/-- Construction yields the length invariant. -/
theorem mkStatement_inv (strings : List JSStr) (values : List SQLValue) (q : SQLStatement)
    (hall : ∀ v ∈ values, v.wf = true) (hok : mkStatement strings values = .ok q) : q.inv :=
  mkStatementGo_inv (strings.drop 1) values _ q (by simp [SQLStatement.inv]) hall hok

/-! ### Resolver characterisations -/

/-- The SQL text the MySQL resolver appends past the first fragment when no
remaining fragment opens an identifier slot: `?` then the fragment, for
each remaining fragment. -/
def tailTextM : List JSStr → JSStr
  | [] => []
  | f :: fs => '?' :: f ++ tailTextM fs

/-- Expected MySQL rendering of a statement with no identifier slots: the
fragments interleaved with one `?` placeholder at each of the
`fragments - 1` boundaries. -/
def mysqlPlainText : List JSStr → JSStr
  | [] => []
  | [f] => f
  | f :: fs => f ++ '?' :: mysqlPlainText fs

/-- PG analogue of `tailTextM`, carrying the placeholder counter. -/
def tailTextP (k : Nat) : List JSStr → JSStr
  | [] => []
  | f :: fs => ('$' :: (toString (k + 1)).toList) ++ f ++ tailTextP (k + 1) fs

/-- Expected Postgres rendering of a statement with no identifier slots:
fragments interleaved with consecutively numbered `$1, $2, ...`
placeholders. -/
def pgPlainText (k : Nat) : List JSStr → JSStr
  | [] => []
  | [f] => f
  | f :: fs => f ++ ('$' :: (toString (k + 1)).toList) ++ pgPlainText (k + 1) fs

theorem mysqlPlainText_cons : ∀ (fs : List JSStr) (f0 : JSStr),
    mysqlPlainText (f0 :: fs) = f0 ++ tailTextM fs
  | [], f0 => by simp [mysqlPlainText, tailTextM]
  | f :: fs, f0 => by
    simp only [mysqlPlainText, tailTextM, mysqlPlainText_cons fs f]
    simp

theorem pgPlainText_cons : ∀ (fs : List JSStr) (f0 : JSStr) (k : Nat),
    pgPlainText k (f0 :: fs) = f0 ++ tailTextP k fs
  | [], f0, k => by simp [pgPlainText, tailTextP]
  | f :: fs, f0, k => by
    simp only [pgPlainText, tailTextP, pgPlainText_cons fs f (k + 1)]
    simp

theorem mysqlResolveGo_plain : ∀ (vs : List BasicSQLValue) (frags : List JSStr)
    (sqlAcc : JSStr) (acc : List BasicSQLValue),
    vs.length = frags.length → (∀ f ∈ frags, startsQuoteB f = false) →
    mysqlResolveGo sqlAcc acc vs frags = (sqlAcc ++ tailTextM frags, acc ++ vs)
  | [], [], sqlAcc, acc, _, _ => by simp [mysqlResolveGo, tailTextM]
  | v :: vs, f :: fs, sqlAcc, acc, hlen, hq => by
    have hf : startsQuoteB f = false := hq f (by simp)
    have ih := mysqlResolveGo_plain vs fs (sqlAcc ++ '?' :: f) (acc ++ [v])
      (by simpa using hlen) (fun f' hf' => hq f' (by simp [hf']))
    simp only [mysqlResolveGo, List.headD, hf, Bool.false_eq_true, if_false, List.tail_cons, ih,
      tailTextM]
    simp

theorem pgResolveGo_plain : ∀ (vs : List BasicSQLValue) (frags : List JSStr)
    (sqlAcc : JSStr) (acc : List BasicSQLValue) (k : Nat),
    vs.length = frags.length → (∀ f ∈ frags, startsQuoteB f = false) →
    pgResolveGo sqlAcc acc k vs frags = (sqlAcc ++ tailTextP k frags, acc ++ vs)
  | [], [], sqlAcc, acc, k, _, _ => by simp [pgResolveGo, tailTextP]
  | v :: vs, f :: fs, sqlAcc, acc, k, hlen, hq => by
    have hf : startsQuoteB f = false := hq f (by simp)
    have ih := pgResolveGo_plain vs fs (sqlAcc ++ ('$' :: (toString (k + 1)).toList) ++ f)
      (acc ++ [v]) (k + 1) (by simpa using hlen) (fun f' hf' => hq f' (by simp [hf']))
    simp only [pgResolveGo, List.headD, hf, Bool.false_eq_true, if_false, List.tail_cons, ih,
      tailTextP]
    simp

/-- The parameter list either resolver returns: the values whose following
fragment does not begin with an identifier-quote glyph, in order. -/
def resolvedParams : List BasicSQLValue → List JSStr → List BasicSQLValue
  | [], _ => []
  | v :: vs, frags =>
    if startsQuoteB (frags.headD []) then resolvedParams vs frags.tail
    else v :: resolvedParams vs frags.tail

theorem mysqlResolveGo_params : ∀ (vs : List BasicSQLValue) (frags : List JSStr)
    (sqlAcc : JSStr) (acc : List BasicSQLValue),
    (mysqlResolveGo sqlAcc acc vs frags).2 = acc ++ resolvedParams vs frags
  | [], _, _, _ => by simp [mysqlResolveGo, resolvedParams]
  | v :: vs, frags, sqlAcc, acc => by
    by_cases hq : startsQuoteB (frags.headD [])
    · simp only [mysqlResolveGo, resolvedParams, hq, if_true]
      exact mysqlResolveGo_params vs frags.tail _ acc
    · simp only [mysqlResolveGo, resolvedParams, hq, Bool.false_eq_true, if_false]
      rw [mysqlResolveGo_params vs frags.tail _ (acc ++ [v])]
      simp

theorem pgResolveGo_params : ∀ (vs : List BasicSQLValue) (frags : List JSStr)
    (sqlAcc : JSStr) (acc : List BasicSQLValue) (k : Nat),
    (pgResolveGo sqlAcc acc k vs frags).2 = acc ++ resolvedParams vs frags
  | [], _, _, _, _ => by simp [pgResolveGo, resolvedParams]
  | v :: vs, frags, sqlAcc, acc, k => by
    by_cases hq : startsQuoteB (frags.headD [])
    · simp only [pgResolveGo, resolvedParams, hq, if_true]
      exact pgResolveGo_params vs frags.tail _ acc _
    · simp only [pgResolveGo, resolvedParams, hq, Bool.false_eq_true, if_false]
      rw [pgResolveGo_params vs frags.tail _ (acc ++ [v]) _]
      simp

/-- A value sitting in an identifier slot contributes nothing to the
resolved parameter list: deleting that position leaves the parameters
unchanged. -/
theorem resolvedParams_skip : ∀ (i : Nat) (vs : List BasicSQLValue) (frags : List JSStr),
    i < vs.length → startsQuoteB (frags.getD i []) = true →
    resolvedParams vs frags = resolvedParams (vs.eraseIdx i) (frags.eraseIdx i)
  | 0, [], _, hi, _ => absurd hi (by simp)
  | 0, v :: vs, frags, _, hq => by
    cases frags with
    | nil => simp [startsQuoteB] at hq
    | cons f fs =>
      have hf : startsQuoteB f = true := by simpa using hq
      simp [resolvedParams, hf, List.eraseIdx]
  | i + 1, [], _, hi, _ => absurd hi (by simp)
  | i + 1, v :: vs, frags, hi, hq => by
    cases frags with
    | nil => simp [startsQuoteB] at hq
    | cons f fs =>
      have hq' : startsQuoteB (fs.getD i []) = true := by simpa using hq
      have hi' : i < vs.length := by simpa using hi
      by_cases hf : startsQuoteB f
      · simp [resolvedParams, hf, List.eraseIdx, resolvedParams_skip i vs fs hi' hq']
      · simp [resolvedParams, hf, List.eraseIdx, resolvedParams_skip i vs fs hi' hq']

theorem mysqlEscapeId_getLast (id : JSStr) : (mysqlEscapeId id).getLast? = some bq := by
  show (bq :: (escChars bq id ++ [bq])).getLast? = some bq
  rw [show bq :: (escChars bq id ++ [bq]) = (bq :: escChars bq id) ++ [bq] from rfl]
  exact List.getLast?_concat _

theorem pgEscapeIdentifier_getLast (id : JSStr) : (pgEscapeIdentifier id).getLast? = some '"' := by
  show ('"' :: (escChars '"' id ++ ['"'])).getLast? = some '"'
  rw [show '"' :: (escChars '"' id ++ ['"']) = ('"' :: escChars '"' id) ++ ['"'] from rfl]
  exact List.getLast?_concat _

theorem dropRightN_one (s : JSStr) : dropRightN s 1 = s.dropLast :=
  (List.dropLast_eq_take s).symm

/-- Once the escaped identifier text `E` (ending in the dialect quote
character `qc`) is an infix of the accumulated SQL text, it stays an infix
through the rest of the MySQL resolver loop: each later step either only
appends, or drops a single trailing character and immediately appends an
escaped identifier starting with `qc` again. -/
theorem mysqlResolveGo_keep : ∀ (vs : List BasicSQLValue) (frags : List JSStr)
    (sqlAcc : JSStr) (acc : List BasicSQLValue) (E a b : JSStr),
    E.getLast? = some bq → sqlAcc = a ++ E ++ b →
    ∃ a' b', (mysqlResolveGo sqlAcc acc vs frags).1 = a' ++ E ++ b'
  | [], frags, sqlAcc, acc, E, a, b, _, hsql => ⟨a, b, by simpa [mysqlResolveGo] using hsql⟩
  | v :: vs, frags, sqlAcc, acc, E, a, b, hE, hsql => by
    have hEne : E ≠ [] := by intro h; rw [h] at hE; simp at hE
    by_cases hq : startsQuoteB (frags.headD [])
    · simp only [mysqlResolveGo, hq, if_true]
      rcases eq_or_ne b [] with hb | hb
      · subst hb
        refine mysqlResolveGo_keep vs frags.tail _ acc E a
          (escChars bq v.toJSString ++ [bq] ++ (frags.headD []).drop 1) hE ?_
        rw [hsql, dropRightN_one]
        simp only [List.append_nil, List.dropLast_append_of_ne_nil a hEne, mysqlEscapeId]
        have hEq : E.dropLast ++ [bq] = E := List.dropLast_append_getLast? bq (by simp [hE])
        calc (a ++ E.dropLast) ++ (bq :: (escChars bq v.toJSString ++ [bq])) ++ (frags.headD []).drop 1
            = a ++ (E.dropLast ++ [bq]) ++ (escChars bq v.toJSString ++ [bq] ++ (frags.headD []).drop 1) := by simp
          _ = a ++ E ++ (escChars bq v.toJSString ++ [bq] ++ (frags.headD []).drop 1) := by rw [hEq]
      · refine mysqlResolveGo_keep vs frags.tail _ acc E a
          (b.dropLast ++ mysqlEscapeId v.toJSString ++ (frags.headD []).drop 1) hE ?_
        rw [hsql, dropRightN_one]
        rw [List.append_assoc a E b, List.dropLast_append_of_ne_nil a (by simp [hb]),
          List.dropLast_append_of_ne_nil E hb]
        simp
    · simp only [mysqlResolveGo, hq, Bool.false_eq_true, if_false]
      refine mysqlResolveGo_keep vs frags.tail _ (acc ++ [v]) E a
        (b ++ '?' :: frags.headD []) hE ?_
      rw [hsql]; simp

/-- PG analogue of `mysqlResolveGo_keep` with the double-quote character. -/
theorem pgResolveGo_keep : ∀ (vs : List BasicSQLValue) (frags : List JSStr)
    (sqlAcc : JSStr) (acc : List BasicSQLValue) (k : Nat) (E a b : JSStr),
    E.getLast? = some '"' → sqlAcc = a ++ E ++ b →
    ∃ a' b', (pgResolveGo sqlAcc acc k vs frags).1 = a' ++ E ++ b'
  | [], frags, sqlAcc, acc, k, E, a, b, _, hsql => ⟨a, b, by simpa [pgResolveGo] using hsql⟩
  | v :: vs, frags, sqlAcc, acc, k, E, a, b, hE, hsql => by
    have hEne : E ≠ [] := by intro h; rw [h] at hE; simp at hE
    by_cases hq : startsQuoteB (frags.headD [])
    · simp only [pgResolveGo, hq, if_true]
      rcases eq_or_ne b [] with hb | hb
      · subst hb
        refine pgResolveGo_keep vs frags.tail _ acc k E a
          (escChars '"' v.toJSString ++ ['"'] ++ (frags.headD []).drop 1) hE ?_
        rw [hsql, dropRightN_one]
        simp only [List.append_nil, List.dropLast_append_of_ne_nil a hEne, pgEscapeIdentifier]
        have hEq : E.dropLast ++ ['"'] = E := List.dropLast_append_getLast? '"' (by simp [hE])
        calc (a ++ E.dropLast) ++ ('"' :: (escChars '"' v.toJSString ++ ['"'])) ++ (frags.headD []).drop 1
            = a ++ (E.dropLast ++ ['"']) ++ (escChars '"' v.toJSString ++ ['"'] ++ (frags.headD []).drop 1) := by simp
          _ = a ++ E ++ (escChars '"' v.toJSString ++ ['"'] ++ (frags.headD []).drop 1) := by rw [hEq]
      · refine pgResolveGo_keep vs frags.tail _ acc k E a
          (b.dropLast ++ pgEscapeIdentifier v.toJSString ++ (frags.headD []).drop 1) hE ?_
        rw [hsql, dropRightN_one]
        rw [List.append_assoc a E b, List.dropLast_append_of_ne_nil a (by simp [hb]),
          List.dropLast_append_of_ne_nil E hb]
        simp
    · simp only [pgResolveGo, hq, Bool.false_eq_true, if_false]
      refine pgResolveGo_keep vs frags.tail _ (acc ++ [v]) (k + 1) E a
        (b ++ ('$' :: (toString (k + 1)).toList) ++ frags.headD []) hE ?_
      rw [hsql]; simp

theorem getD_succ_tail {α : Type} (l : List α) (i : Nat) (d : α) :
    l.getD (i + 1) d = l.tail.getD i d := by
  cases l <;> simp [List.getD]

/-- If position `i` is an identifier slot, the MySQL resolver splices the
backquote-escaped identifier text for that value into its output. -/
theorem mysqlResolveGo_splice : ∀ (i : Nat) (vs : List BasicSQLValue) (frags : List JSStr)
    (sqlAcc : JSStr) (acc : List BasicSQLValue),
    i < vs.length → startsQuoteB (frags.getD i []) = true →
    ∃ a b, (mysqlResolveGo sqlAcc acc vs frags).1
      = a ++ mysqlEscapeId ((vs.getD i .null).toJSString) ++ b
  | _, [], _, _, _, hi, _ => absurd hi (by simp)
  | 0, v :: vs, frags, sqlAcc, acc, _, hq => by
    have hq0 : startsQuoteB (frags.headD []) = true := by
      cases frags <;> simpa [List.getD] using hq
    simp only [mysqlResolveGo, hq0, if_true, List.getD]
    exact mysqlResolveGo_keep vs frags.tail _ acc _ (dropRightN sqlAcc 1)
      ((frags.headD []).drop 1) (mysqlEscapeId_getLast _) rfl
  | i + 1, v :: vs, frags, sqlAcc, acc, hi, hq => by
    have hi' : i < vs.length := by simpa using hi
    have hq' : startsQuoteB (frags.tail.getD i []) = true := by
      rw [← getD_succ_tail]; exact hq
    have hgetD : (v :: vs).getD (i + 1) BasicSQLValue.null = vs.getD i .null := by
      simp [List.getD]
    rw [hgetD]
    by_cases hf : startsQuoteB (frags.headD [])
    · simp only [mysqlResolveGo, hf, if_true]
      exact mysqlResolveGo_splice i vs frags.tail _ acc hi' hq'
    · simp only [mysqlResolveGo, hf, Bool.false_eq_true, if_false]
      exact mysqlResolveGo_splice i vs frags.tail _ (acc ++ [v]) hi' hq'

/-- Resolver output for a statement with no identifier slots (MySQL). -/
theorem mysqlResolveSQL_plain (q : SQLStatement) (hinv : q.inv)
    (hq : ∀ f ∈ q.sql.drop 1, startsQuoteB f = false) :
    mysqlResolveSQL q = (mysqlPlainText q.sql, q.values) := by
  have hinv' : q.sql.length = q.values.length + 1 := hinv
  cases hsql : q.sql with
  | nil => rw [hsql] at hinv'; simp at hinv'
  | cons f0 fs =>
    have hlen : q.values.length = fs.length := by
      rw [hsql] at hinv'; simp only [List.length_cons] at hinv'; omega
    have hq' : ∀ f ∈ fs, startsQuoteB f = false := by
      intro f hf; exact hq f (by simp [hsql, hf])
    unfold mysqlResolveSQL
    rw [hsql]
    simp only [List.headD, List.drop_succ_cons, List.drop_zero]
    rw [mysqlResolveGo_plain q.values fs f0 [] hlen hq', mysqlPlainText_cons]
    simp

/-- Resolver output for a statement with no identifier slots (Postgres). -/
theorem pgResolveSQL_plain (q : SQLStatement) (hinv : q.inv)
    (hq : ∀ f ∈ q.sql.drop 1, startsQuoteB f = false) :
    pgResolveSQL q = (pgPlainText 0 q.sql, q.values) := by
  have hinv' : q.sql.length = q.values.length + 1 := hinv
  cases hsql : q.sql with
  | nil => rw [hsql] at hinv'; simp at hinv'
  | cons f0 fs =>
    have hlen : q.values.length = fs.length := by
      rw [hsql] at hinv'; simp only [List.length_cons] at hinv'; omega
    have hq' : ∀ f ∈ fs, startsQuoteB f = false := by
      intro f hf; exact hq f (by simp [hsql, hf])
    unfold pgResolveSQL
    rw [hsql]
    simp only [List.headD, List.drop_succ_cons, List.drop_zero]
    rw [pgResolveGo_plain q.values fs f0 [] 0 hlen hq', pgPlainText_cons]
    simp

/-- PG analogue of `mysqlResolveGo_splice`. -/
theorem pgResolveGo_splice : ∀ (i : Nat) (vs : List BasicSQLValue) (frags : List JSStr)
    (sqlAcc : JSStr) (acc : List BasicSQLValue) (k : Nat),
    i < vs.length → startsQuoteB (frags.getD i []) = true →
    ∃ a b, (pgResolveGo sqlAcc acc k vs frags).1
      = a ++ pgEscapeIdentifier ((vs.getD i .null).toJSString) ++ b
  | _, [], _, _, _, _, hi, _ => absurd hi (by simp)
  | 0, v :: vs, frags, sqlAcc, acc, k, _, hq => by
    have hq0 : startsQuoteB (frags.headD []) = true := by
      cases frags <;> simpa [List.getD] using hq
    simp only [pgResolveGo, hq0, if_true, List.getD]
    exact pgResolveGo_keep vs frags.tail _ acc k _ (dropRightN sqlAcc 1)
      ((frags.headD []).drop 1) (pgEscapeIdentifier_getLast _) rfl
  | i + 1, v :: vs, frags, sqlAcc, acc, k, hi, hq => by
    have hi' : i < vs.length := by simpa using hi
    have hq' : startsQuoteB (frags.tail.getD i []) = true := by
      rw [← getD_succ_tail]; exact hq
    have hgetD : (v :: vs).getD (i + 1) BasicSQLValue.null = vs.getD i .null := by
      simp [List.getD]
    rw [hgetD]
    by_cases hf : startsQuoteB (frags.headD [])
    · simp only [pgResolveGo, hf, if_true]
      exact pgResolveGo_splice i vs frags.tail _ acc k hi' hq'
    · simp only [pgResolveGo, hf, Bool.false_eq_true, if_false]
      exact pgResolveGo_splice i vs frags.tail _ (acc ++ [v]) (k + 1) hi' hq'

/-! ### Composition algebra -/

theorem modifyLast_cons_cons (f : JSStr → JSStr) (x y : JSStr) (xs : List JSStr) :
    modifyLast f (x :: y :: xs) = x :: modifyLast f (y :: xs) := rfl

theorem modifyLast_append_right (f : JSStr → JSStr) :
    ∀ (xs ys : List JSStr), ys ≠ [] → modifyLast f (xs ++ ys) = xs ++ modifyLast f ys
  | [], _, _ => by simp
  | x :: xs, ys, h => by
    rw [List.cons_append]
    cases hxy : xs ++ ys with
    | nil => exact absurd hxy (by simp [h])
    | cons y rest =>
      calc modifyLast f (x :: y :: rest)
          = x :: modifyLast f (y :: rest) := rfl
        _ = x :: modifyLast f (xs ++ ys) := by rw [hxy]
        _ = x :: (xs ++ modifyLast f ys) := by rw [modifyLast_append_right f xs ys h]
        _ = (x :: xs) ++ modifyLast f ys := rfl

theorem modifyLast_modifyLast (f g : JSStr → JSStr) :
    ∀ l, modifyLast g (modifyLast f l) = modifyLast (fun x => g (f x)) l
  | [] => rfl
  | [_] => rfl
  | x :: y :: xs => by
    rw [modifyLast_cons_cons f x y xs]
    cases hm : modifyLast f (y :: xs) with
    | nil => exact absurd (congrArg List.length hm) (by simp [modifyLast_length])
    | cons z rest =>
      rw [modifyLast_cons_cons g x z rest, ← hm, modifyLast_modifyLast f g (y :: xs),
        modifyLast_cons_cons _ x y xs]

theorem modifyLast_congr (f g : JSStr → JSStr) (hfg : ∀ x, f x = g x) :
    ∀ l, modifyLast f l = modifyLast g l
  | [] => rfl
  | [x] => by simp [modifyLast, hfg x]
  | x :: y :: xs => by
    rw [modifyLast_cons_cons, modifyLast_cons_cons, modifyLast_congr f g hfg (y :: xs)]

/-- Unfolded form of the nested-statement append for a nonempty nested
statement. -/
theorem appendStmt_eq (st : SQLStatement) (f : JSStr) (rest : List JSStr)
    (vals : List BasicSQLValue) :
    appendStmt st ⟨f :: rest, vals⟩
      = ⟨modifyLast (· ++ f) st.sql ++ rest, st.values ++ vals⟩ := rfl

/-- Appending nested statements is associative provided the middle
statement has at least one fragment. -/
theorem appendStmt_assoc (S A B : SQLStatement) (hA : A.sql ≠ []) :
    appendStmt (appendStmt S A) B = appendStmt S (appendStmt A B) := by
  obtain ⟨Asql, Avals⟩ := A
  obtain ⟨Bsql, Bvals⟩ := B
  cases Asql with
  | nil => exact absurd rfl hA
  | cons a0 arest =>
    cases Bsql with
    | nil => rfl
    | cons b0 brest =>
      cases arest with
      | nil =>
        rw [appendStmt_eq, appendStmt_eq]
        rw [show appendStmt ⟨[a0], Avals⟩ ⟨b0 :: brest, Bvals⟩
              = ⟨(a0 ++ b0) :: brest, Avals ++ Bvals⟩ from rfl]
        rw [appendStmt_eq]
        refine congrArg₂ SQLStatement.mk ?_ (by simp)
        rw [List.append_nil, modifyLast_modifyLast]
        rw [modifyLast_congr _ (· ++ (a0 ++ b0)) (fun x => by simp) S.sql]
      | cons c r =>
        rw [appendStmt_eq, appendStmt_eq]
        rw [show appendStmt ⟨a0 :: c :: r, Avals⟩ ⟨b0 :: brest, Bvals⟩
              = ⟨modifyLast (· ++ b0) (a0 :: c :: r) ++ brest, Avals ++ Bvals⟩ from rfl]
        rw [modifyLast_cons_cons]
        rw [show (⟨(a0 :: modifyLast (· ++ b0) (c :: r)) ++ brest, Avals ++ Bvals⟩ : SQLStatement)
              = ⟨a0 :: (modifyLast (· ++ b0) (c :: r) ++ brest), Avals ++ Bvals⟩ from by simp]
        rw [appendStmt_eq]
        refine congrArg₂ SQLStatement.mk ?_ (by simp)
        rw [modifyLast_append_right (· ++ b0) _ (c :: r) (by simp)]
        simp

/-! ### Table compositions always succeed where the source succeeds -/

theorem entriesStatement_ok : ∀ (entries : Option (List JSStr ⊕ SQLStatement)),
    ∃ e, entriesStatement entries = .ok e
  | none => ⟨_, rfl⟩
  | some (.inr s) => ⟨s, rfl⟩
  | some (.inl _) => ⟨_, rfl⟩

theorem pkWhereClause_ok (pk : JSStr) (primaryKey : BasicSQLValue) :
    pkWhereClause pk primaryKey
      = .ok ⟨["WHERE \"".toList, "\" = ".toList, []], [.str pk, primaryKey]⟩ := rfl

theorem selectOneStatement_ok (t : DatabaseTable) (entries : Option (List JSStr ⊕ SQLStatement))
    (clause : SQLStatement) : ∃ q, selectOneStatement t entries clause = .ok q := by
  obtain ⟨e, he⟩ := entriesStatement_ok entries
  unfold selectOneStatement
  rw [he]
  exact ⟨_, rfl⟩

theorem deleteAllStatement_ok (t : DatabaseTable) (clause : SQLStatement) :
    ∃ q, deleteAllStatement t clause = .ok q := ⟨_, rfl⟩

theorem updateAllStatement_ok (t : DatabaseTable) (row : List (JSStr × RowVal))
    (clause : SQLStatement) : ∃ q, updateAllStatement t row clause = .ok q := ⟨_, rfl⟩

/-! ### Claims -/

/-- Claim C1: for every Statement, after construction from literal segments
plus interpolations, and after every append operation (of a scalar, an
array, a key-value object, `undefined`, or a nested Statement), the length
of the fragment list `sql` equals the length of the parameter list `values`
plus one.  Nested statements are themselves assumed well formed (empty or
satisfying the invariant), which holds for every statement the API can
construct. -/
theorem claim_C1 :
    (∀ (strings : List JSStr) (values : List SQLValue) (q : SQLStatement),
      (∀ v ∈ values, v.wf = true) → mkStatement strings values = .ok q → q.inv)
    ∧ (∀ (st : SQLStatement) (v : SQLValue) (st' : SQLStatement),
      st.inv → v.wf = true → st.append v = .ok st' → st'.inv) :=
  ⟨fun strings values q hall hok => mkStatement_inv strings values q hall hok,
   fun st v st' h hv hok => append_inv st v st' h hv hok⟩

/-- Witness for C1: the invariant concretely, after construction and after
an object append. -/
theorem claim_C1_witness :
    ((∀ v ∈ ([.basic (.num 1)] : List SQLValue), SQLValue.wf v = true)
      ∧ mkStatement ["a".toList, "b".toList] [.basic (.num 1)]
          = .ok ⟨["a".toList, "b".toList], [.num 1]⟩
      ∧ SQLStatement.inv ⟨["a".toList, "b".toList], [.num 1]⟩)
    ∧ (SQLStatement.inv ⟨["go(".toList], []⟩
      ∧ SQLValue.wf (.obj [("k".toList, .basic .null)]) = true
      ∧ SQLStatement.append ⟨["go(".toList], []⟩ (.obj [("k".toList, .basic .null)])
          = .ok ⟨["go(\"".toList, "\") VALUES (".toList, []], [.str ("k".toList), .null]⟩
      ∧ SQLStatement.inv ⟨["go(\"".toList, "\") VALUES (".toList, []], [.str ("k".toList), .null]⟩) :=
  ⟨⟨by decide, by decide,
    claim_C1.1 ["a".toList, "b".toList] [.basic (.num 1)]
      ⟨["a".toList, "b".toList], [.num 1]⟩ (by decide) (by decide)⟩,
   ⟨by rfl, by decide, by decide,
    claim_C1.2 ⟨["go(".toList], []⟩ (.obj [("k".toList, .basic .null)])
      ⟨["go(\"".toList, "\") VALUES (".toList, []], [.str ("k".toList), .null]⟩
      (by rfl) (by decide) (by decide)⟩⟩

/-- Counterexample to claim C2 as stated: this statement is built purely
from one scalar (string) interpolation, yet because the literal fragment
following the interpolation happens to begin with a double quote, both
resolvers perform identifier-escaping substitution and return an empty
parameter list instead of the statement's values. -/
theorem claim_C2_counterexample :
    mkStatement ["SELECT ".toList, "\"c".toList] [.basic (.str ("a".toList))]
      = .ok ⟨["SELECT ".toList, "\"c".toList], [.str ("a".toList)]⟩
    ∧ (mysqlResolveSQL ⟨["SELECT ".toList, "\"c".toList], [.str ("a".toList)]⟩).2
        ≠ (⟨["SELECT ".toList, "\"c".toList], [.str ("a".toList)]⟩ : SQLStatement).values
    ∧ (pgResolveSQL ⟨["SELECT ".toList, "\"c".toList], [.str ("a".toList)]⟩).2
        ≠ (⟨["SELECT ".toList, "\"c".toList], [.str ("a".toList)]⟩ : SQLStatement).values :=
  ⟨by decide, by decide, by decide⟩

/-- Claim C2 (amended): for every Statement built purely from scalar
interpolations in which, additionally, no literal fragment following an
interpolation begins with an identifier-quote glyph, dialect resolution
produces the fragments interleaved with exactly one placeholder marker per
parameter (`?` for MySQL; consecutively numbered `$1, $2, ...` for
Postgres) in source order, the returned parameter list equals the
statement's values in order, and no identifier-escaping substitution is
performed. -/
theorem claim_C2 (strings : List JSStr) (scalars : List BasicSQLValue) (q : SQLStatement)
    (hok : mkStatement strings (scalars.map .basic) = .ok q)
    (hq : ∀ f ∈ q.sql.drop 1, startsQuoteB f = false) :
    mysqlResolveSQL q = (mysqlPlainText q.sql, q.values)
    ∧ pgResolveSQL q = (pgPlainText 0 q.sql, q.values)
    ∧ q.sql.length = q.values.length + 1 := by
  have hinv : q.inv := by
    refine mkStatement_inv strings _ q ?_ hok
    intro v hv
    rw [List.mem_map] at hv
    obtain ⟨b, _, rfl⟩ := hv
    rfl
  exact ⟨mysqlResolveSQL_plain q hinv hq, pgResolveSQL_plain q hinv hq, hinv⟩

/-- Witness for C2 (amended) at a concrete two-fragment statement. -/
theorem claim_C2_witness :
    mkStatement ["SELECT ".toList, " FROM t".toList] ([BasicSQLValue.num 5].map .basic)
        = .ok ⟨["SELECT ".toList, " FROM t".toList], [.num 5]⟩
    ∧ (∀ f ∈ (⟨["SELECT ".toList, " FROM t".toList], [.num 5]⟩ : SQLStatement).sql.drop 1,
        startsQuoteB f = false)
    ∧ (mysqlResolveSQL ⟨["SELECT ".toList, " FROM t".toList], [.num 5]⟩
        = (mysqlPlainText (⟨["SELECT ".toList, " FROM t".toList], [.num 5]⟩ : SQLStatement).sql,
           (⟨["SELECT ".toList, " FROM t".toList], [.num 5]⟩ : SQLStatement).values)
      ∧ pgResolveSQL ⟨["SELECT ".toList, " FROM t".toList], [.num 5]⟩
        = (pgPlainText 0 (⟨["SELECT ".toList, " FROM t".toList], [.num 5]⟩ : SQLStatement).sql,
           (⟨["SELECT ".toList, " FROM t".toList], [.num 5]⟩ : SQLStatement).values)
      ∧ (⟨["SELECT ".toList, " FROM t".toList], [.num 5]⟩ : SQLStatement).sql.length
        = (⟨["SELECT ".toList, " FROM t".toList], [.num 5]⟩ : SQLStatement).values.length + 1) :=
  ⟨by decide, by decide,
   claim_C2 ["SELECT ".toList, " FROM t".toList] [BasicSQLValue.num 5]
     ⟨["SELECT ".toList, " FROM t".toList], [.num 5]⟩ (by decide) (by decide)⟩

/-- Counterexample to claim C3 as stated: the interpolated value is
immediately preceded in the literal text by a double quote (its preceding
fragment ends with `"`), yet because the FOLLOWING fragment does not begin
with a quote glyph, both resolvers do emit a bound parameter for it and the
value does appear in the returned parameter list. -/
theorem claim_C3_counterexample :
    ((⟨["a\"".toList, "b".toList], [.num 1]⟩ : SQLStatement).sql.headD []).getLast? = some '"'
    ∧ mysqlResolveSQL ⟨["a\"".toList, "b".toList], [.num 1]⟩ = ("a\"?b".toList, [.num 1])
    ∧ pgResolveSQL ⟨["a\"".toList, "b".toList], [.num 1]⟩ = ("a\"$1b".toList, [.num 1]) :=
  ⟨by decide, by decide, by decide⟩

/-- Claim C3 (amended): the identifier treatment is triggered by the
fragment FOLLOWING the interpolation beginning with a backquote or double
quote (which, in well-formed quoted usage, is the closing glyph of a quote
opened immediately before it).  In that case neither dialect resolver emits
a bound parameter for the value: the returned parameter list of both
resolvers is exactly the values at non-identifier slots (so deleting the
identifier-slot position changes nothing), and the dialect-escaped
identifier text for the value is spliced inline into the SQL string. -/
theorem claim_C3 (q : SQLStatement) (i : Nat) (hi : i < q.values.length)
    (hq : startsQuoteB ((q.sql.drop 1).getD i []) = true) :
    (mysqlResolveSQL q).2 = resolvedParams q.values (q.sql.drop 1)
    ∧ (pgResolveSQL q).2 = resolvedParams q.values (q.sql.drop 1)
    ∧ resolvedParams q.values (q.sql.drop 1)
        = resolvedParams (q.values.eraseIdx i) ((q.sql.drop 1).eraseIdx i)
    ∧ (∃ a b, (mysqlResolveSQL q).1
        = a ++ mysqlEscapeId ((q.values.getD i .null).toJSString) ++ b)
    ∧ (∃ a b, (pgResolveSQL q).1
        = a ++ pgEscapeIdentifier ((q.values.getD i .null).toJSString) ++ b) := by
  refine ⟨?_, ?_, resolvedParams_skip i q.values (q.sql.drop 1) hi hq, ?_, ?_⟩
  · unfold mysqlResolveSQL
    rw [mysqlResolveGo_params q.values (q.sql.drop 1) (q.sql.headD []) []]
    simp
  · unfold pgResolveSQL
    rw [pgResolveGo_params q.values (q.sql.drop 1) (q.sql.headD []) [] 0]
    simp
  · exact mysqlResolveGo_splice i q.values (q.sql.drop 1) (q.sql.headD []) [] hi hq
  · exact pgResolveGo_splice i q.values (q.sql.drop 1) (q.sql.headD []) [] 0 hi hq

/-- Witness for C3 (amended) at a concrete identifier-slot statement. -/
theorem claim_C3_witness :
    0 < (⟨["FROM \"".toList, "\" x".toList], [.str ("tbl".toList)]⟩ : SQLStatement).values.length
    ∧ startsQuoteB (((⟨["FROM \"".toList, "\" x".toList], [.str ("tbl".toList)]⟩ :
        SQLStatement).sql.drop 1).getD 0 []) = true
    ∧ ((mysqlResolveSQL ⟨["FROM \"".toList, "\" x".toList], [.str ("tbl".toList)]⟩).2
        = resolvedParams (⟨["FROM \"".toList, "\" x".toList], [.str ("tbl".toList)]⟩ :
            SQLStatement).values
          ((⟨["FROM \"".toList, "\" x".toList], [.str ("tbl".toList)]⟩ : SQLStatement).sql.drop 1)
      ∧ (pgResolveSQL ⟨["FROM \"".toList, "\" x".toList], [.str ("tbl".toList)]⟩).2
        = resolvedParams (⟨["FROM \"".toList, "\" x".toList], [.str ("tbl".toList)]⟩ :
            SQLStatement).values
          ((⟨["FROM \"".toList, "\" x".toList], [.str ("tbl".toList)]⟩ : SQLStatement).sql.drop 1)
      ∧ resolvedParams (⟨["FROM \"".toList, "\" x".toList], [.str ("tbl".toList)]⟩ :
            SQLStatement).values
          ((⟨["FROM \"".toList, "\" x".toList], [.str ("tbl".toList)]⟩ : SQLStatement).sql.drop 1)
        = resolvedParams ((⟨["FROM \"".toList, "\" x".toList], [.str ("tbl".toList)]⟩ :
            SQLStatement).values.eraseIdx 0)
          (((⟨["FROM \"".toList, "\" x".toList], [.str ("tbl".toList)]⟩ :
            SQLStatement).sql.drop 1).eraseIdx 0)
      ∧ (∃ a b, (mysqlResolveSQL ⟨["FROM \"".toList, "\" x".toList], [.str ("tbl".toList)]⟩).1
          = a ++ mysqlEscapeId (((⟨["FROM \"".toList, "\" x".toList], [.str ("tbl".toList)]⟩ :
              SQLStatement).values.getD 0 .null).toJSString) ++ b)
      ∧ (∃ a b, (pgResolveSQL ⟨["FROM \"".toList, "\" x".toList], [.str ("tbl".toList)]⟩).1
          = a ++ pgEscapeIdentifier (((⟨["FROM \"".toList, "\" x".toList], [.str ("tbl".toList)]⟩ :
              SQLStatement).values.getD 0 .null).toJSString) ++ b)) :=
  ⟨by decide, by decide,
   claim_C3 ⟨["FROM \"".toList, "\" x".toList], [.str ("tbl".toList)]⟩ 0
     (by decide) (by decide)⟩

/-- Claim C4: appending a key-value object when the current last fragment
neither ends with `(` nor case-insensitively ends with ` SET ` fails during
composition (before any resolution) with the error
`Objects can only appear in (obj) or after SET; unrecognized: <frag>[obj]`,
whose message contains the offending trailing fragment text. -/
theorem claim_C4 (st : SQLStatement) (kvs : List (JSStr × RowVal))
    (hparen : st.lastFrag.getLast? ≠ some '(')
    (hset : isSetSuffix st.lastFrag = false) :
    st.append (.obj kvs) = .error (objError st.lastFrag)
    ∧ ∃ pre post, objError st.lastFrag = pre ++ st.lastFrag ++ post := by
  constructor
  · have hp : (st.lastFrag.getLast? == some '(') = false := by
      rw [beq_eq_false_iff_ne]
      exact hparen
    simp [SQLStatement.append, hp, hset]
  · exact ⟨("Objects can only appear in (obj) or after SET; unrecognized: ".toList),
      ("[obj]".toList), rfl⟩

/-- Witness for C4 at a concrete statement whose last fragment is
`WHERE `. -/
theorem claim_C4_witness :
    (⟨["WHERE ".toList], []⟩ : SQLStatement).lastFrag.getLast? ≠ some '('
    ∧ isSetSuffix (⟨["WHERE ".toList], []⟩ : SQLStatement).lastFrag = false
    ∧ (SQLStatement.append ⟨["WHERE ".toList], []⟩ (.obj [])
        = .error (objError (⟨["WHERE ".toList], []⟩ : SQLStatement).lastFrag)
      ∧ ∃ pre post, objError (⟨["WHERE ".toList], []⟩ : SQLStatement).lastFrag
          = pre ++ (⟨["WHERE ".toList], []⟩ : SQLStatement).lastFrag ++ post) :=
  ⟨by decide, by decide,
   claim_C4 ⟨["WHERE ".toList], []⟩ [] (by decide) (by decide)⟩

/-- Claim C5 is right about the intended behaviour but the code loses it on
the MySQL path: `tryInsert` only downgrades an error whose `code` property
is `'ER_DUP_ENTRY'`, but `MySQLDatabase._query` wraps every driver error in
a fresh `Error` (appending the code to the message text) that carries no
`code` property, so a duplicate-key driver failure reaches `tryInsert` with
`code` absent and is rethrown instead of being converted to `undefined`.
The second conjunct shows the downgrade does fire on an unwrapped
`ER_DUP_ENTRY` error, which is what the code's own `tryInsert` logic
intends. -/
theorem claim_C5_code_bug :
    tryInsertOutcome (α := Nat)
        (mysqlQueryOutcome ("INSERT INTO x".toList) []
          (.error ⟨"Duplicate entry".toList, some ("ER_DUP_ENTRY".toList)⟩))
      = .error ⟨"Duplicate entry (INSERT INTO x) () [ER_DUP_ENTRY]".toList, none⟩
    ∧ tryInsertOutcome (α := Nat)
        (.error ⟨"Duplicate entry".toList, some ("ER_DUP_ENTRY".toList)⟩) = .ok none :=
  ⟨by decide, by decide⟩

/-- Counterexample to claim C6 as stated: with `primaryKeyName` SET to the
empty string (not null), the keyed methods still throw the configuration
error — the source guard `!this.primaryKeyName` is a JS falsy test, which
also fires on the empty string. -/
theorem claim_C6_counterexample :
    (⟨"users".toList, some []⟩ : DatabaseTable).primaryKeyName ≠ none
    ∧ tableGet ⟨"users".toList, some []⟩ (.num 42) none
        = .error ("Cannot get() without a single-column primary key".toList)
    ∧ tableDelete ⟨"users".toList, some []⟩ (.num 42)
        = .error ("Cannot delete() without a single-column primary key".toList)
    ∧ tableUpdate ⟨"users".toList, some []⟩ (.num 42) []
        = .error ("Cannot update() without a single-column primary key".toList) :=
  ⟨by decide, by decide, by decide, by decide⟩

/-- Claim C6 (amended): on a table whose `primaryKeyName` is null OR the
empty string (the source guard `!this.primaryKeyName` is a JS falsy test),
each keyed convenience method — `get`, `delete`, `update` — fails during
composition (before any statement is resolved or any network call is made)
with the corresponding configuration error; with a non-empty primary-key
name set, each of them composes successfully (so that error is never
thrown). -/
theorem claim_C6 (t : DatabaseTable) (primaryKey : BasicSQLValue)
    (entries : Option (List JSStr ⊕ SQLStatement)) (data : List (JSStr × RowVal)) :
    (t.primaryKeyName = none ∨ t.primaryKeyName = some [] →
      tableGet t primaryKey entries
          = .error ("Cannot get() without a single-column primary key".toList)
      ∧ tableDelete t primaryKey
          = .error ("Cannot delete() without a single-column primary key".toList)
      ∧ tableUpdate t primaryKey data
          = .error ("Cannot update() without a single-column primary key".toList))
    ∧ (∀ pk, t.primaryKeyName = some pk → pk ≠ [] →
      (∃ q, tableGet t primaryKey entries = .ok q)
      ∧ (∃ q, tableDelete t primaryKey = .ok q)
      ∧ (∃ q, tableUpdate t primaryKey data = .ok q)) := by
  constructor
  · intro hfalsy
    cases hfalsy with
    | inl hnone =>
      refine ⟨?_, ?_, ?_⟩
      · unfold tableGet; rw [hnone]
      · unfold tableDelete; rw [hnone]
      · unfold tableUpdate; rw [hnone]
    | inr hempty =>
      refine ⟨?_, ?_, ?_⟩
      · unfold tableGet; rw [hempty]; rfl
      · unfold tableDelete; rw [hempty]; rfl
      · unfold tableUpdate; rw [hempty]; rfl
  · intro pk hpk hne
    obtain ⟨a, l, rfl⟩ : ∃ a l, pk = a :: l := by
      cases pk with
      | nil => exact absurd rfl hne
      | cons a l => exact ⟨a, l, rfl⟩
    refine ⟨?_, ?_, ?_⟩
    · obtain ⟨q, hq⟩ := selectOneStatement_ok t entries
        ⟨["WHERE \"".toList, "\" = ".toList, []], [.str (a :: l), primaryKey]⟩
      refine ⟨q, ?_⟩
      unfold tableGet
      rw [hpk]
      show (pkWhereClause (a :: l) primaryKey >>= fun c => selectOneStatement t entries c) = .ok q
      rw [pkWhereClause_ok]
      show selectOneStatement t entries _ = .ok q
      exact hq
    · obtain ⟨q, hq⟩ := deleteAllStatement_ok t
        ⟨["WHERE \"".toList, "\" = ".toList, []], [.str (a :: l), primaryKey]⟩
      refine ⟨q, ?_⟩
      unfold tableDelete
      rw [hpk]
      show (pkWhereClause (a :: l) primaryKey >>= fun c => deleteAllStatement t c) = .ok q
      rw [pkWhereClause_ok]
      show deleteAllStatement t _ = .ok q
      exact hq
    · obtain ⟨q, hq⟩ := updateAllStatement_ok t data
        ⟨["WHERE \"".toList, "\" = ".toList, []], [.str (a :: l), primaryKey]⟩
      refine ⟨q, ?_⟩
      unfold tableUpdate
      rw [hpk]
      show (pkWhereClause (a :: l) primaryKey >>= fun c => updateAllStatement t data c) = .ok q
      rw [pkWhereClause_ok]
      show updateAllStatement t data _ = .ok q
      exact hq

/-- Witness for C6 (amended): a null-key table, an empty-string-key table,
and a keyed table, concretely. -/
theorem claim_C6_witness :
    ((⟨"users".toList, none⟩ : DatabaseTable).primaryKeyName = none
      ∧ (tableGet ⟨"users".toList, none⟩ (.num 42) none
            = .error ("Cannot get() without a single-column primary key".toList)
        ∧ tableDelete ⟨"users".toList, none⟩ (.num 42)
            = .error ("Cannot delete() without a single-column primary key".toList)
        ∧ tableUpdate ⟨"users".toList, none⟩ (.num 42) []
            = .error ("Cannot update() without a single-column primary key".toList)))
    ∧ ((⟨"users".toList, some []⟩ : DatabaseTable).primaryKeyName = some []
      ∧ (tableGet ⟨"users".toList, some []⟩ (.num 42) none
            = .error ("Cannot get() without a single-column primary key".toList)
        ∧ tableDelete ⟨"users".toList, some []⟩ (.num 42)
            = .error ("Cannot delete() without a single-column primary key".toList)
        ∧ tableUpdate ⟨"users".toList, some []⟩ (.num 42) []
            = .error ("Cannot update() without a single-column primary key".toList)))
    ∧ ((⟨"users".toList, some ("id".toList)⟩ : DatabaseTable).primaryKeyName = some ("id".toList)
      ∧ ("id".toList : JSStr) ≠ []
      ∧ ((∃ q, tableGet ⟨"users".toList, some ("id".toList)⟩ (.num 42) none = .ok q)
        ∧ (∃ q, tableDelete ⟨"users".toList, some ("id".toList)⟩ (.num 42) = .ok q)
        ∧ (∃ q, tableUpdate ⟨"users".toList, some ("id".toList)⟩ (.num 42) [] = .ok q))) :=
  ⟨⟨rfl, (claim_C6 ⟨"users".toList, none⟩ (.num 42) none []).1 (Or.inl rfl)⟩,
   ⟨rfl, (claim_C6 ⟨"users".toList, some []⟩ (.num 42) none []).1 (Or.inr rfl)⟩,
   ⟨rfl, by decide, (claim_C6 ⟨"users".toList, some ("id".toList)⟩ (.num 42) none []).2
      ("id".toList) rfl (by decide)⟩⟩

/-- The statement `insert({name: "x", age: 5})` composes on a `users` table
with empty prefix. -/
def usersInsertStmt : SQLStatement :=
  ⟨["INSERT INTO \"".toList, "\" (\"".toList, "\", \"".toList,
    "\") VALUES (".toList, ", ".toList, ") ".toList],
   [.str ("users".toList), .str ("name".toList), .str ("age".toList),
    .str ("x".toList), .num 5]⟩

/-- Claim C7: `insert({name: "x", age: 5})` on table `users` with empty
prefix composes the statement above, and both dialects resolve it to
`INSERT INTO <quoted users> (<quoted name>, <quoted age>) VALUES (p1, p2)`
(with a trailing space from the omitted where-clause slot), the table and
column names as dialect-escaped identifiers, and parameter list
`["x", 5]` in that order. -/
theorem claim_C7 :
    tableInsertStatement (makeTable [] ("users".toList) none)
        [("name".toList, .basic (.str ("x".toList))), ("age".toList, .basic (.num 5))] none
      = .ok usersInsertStmt
    ∧ mysqlResolveSQL usersInsertStmt
      = ("INSERT INTO `users` (`name`, `age`) VALUES (?, ?) ".toList,
         [.str ("x".toList), .num 5])
    ∧ pgResolveSQL usersInsertStmt
      = ("INSERT INTO \"users\" (\"name\", \"age\") VALUES ($1, $2) ".toList,
         [.str ("x".toList), .num 5]) :=
  ⟨by decide, by decide, by decide⟩

/-- Claim C8: statement composition is associative (for statements
satisfying the length invariant), and appending a nonempty nested statement
concatenates its first fragment onto the current last fragment and then
appends its remaining fragments and all its parameters positionally. -/
theorem claim_C8 (S A B : SQLStatement) (_hS : S.inv) (hA : A.inv) (_hB : B.inv) :
    (S.append (.stmt A) >>= fun S1 => S1.append (.stmt B))
      = (A.append (.stmt B) >>= fun AB => S.append (.stmt AB))
    ∧ (∀ f rest, A.sql = f :: rest →
        S.append (.stmt A) = .ok ⟨modifyLast (· ++ f) S.sql ++ rest, S.values ++ A.values⟩) := by
  constructor
  · have hAne : A.sql ≠ [] := by
      intro h
      have : A.sql.length = A.values.length + 1 := hA
      rw [h] at this
      simp at this
    show Except.ok (appendStmt (appendStmt S A) B)
        = Except.ok (appendStmt S (appendStmt A B))
    exact congrArg Except.ok (appendStmt_assoc S A B hAne)
  · intro f rest hsql
    show Except.ok (appendStmt S A) = _
    obtain ⟨Asql, Avals⟩ := A
    simp only at hsql
    subst hsql
    rw [appendStmt_eq]

/-- Witness for C8 at concrete invariant-satisfying statements. -/
theorem claim_C8_witness :
    (SQLStatement.inv ⟨["s".toList], []⟩
      ∧ SQLStatement.inv ⟨["a1".toList, "a2".toList], [.num 1]⟩
      ∧ SQLStatement.inv ⟨["b1".toList, "b2".toList], [.num 2]⟩)
    ∧ ((SQLStatement.append ⟨["s".toList], []⟩ (.stmt ⟨["a1".toList, "a2".toList], [.num 1]⟩)
          >>= fun S1 => S1.append (.stmt ⟨["b1".toList, "b2".toList], [.num 2]⟩))
        = (SQLStatement.append ⟨["a1".toList, "a2".toList], [.num 1]⟩
            (.stmt ⟨["b1".toList, "b2".toList], [.num 2]⟩)
          >>= fun AB => SQLStatement.append ⟨["s".toList], []⟩ (.stmt AB))
      ∧ (∀ f rest, (⟨["a1".toList, "a2".toList], [.num 1]⟩ : SQLStatement).sql = f :: rest →
          SQLStatement.append ⟨["s".toList], []⟩
              (.stmt ⟨["a1".toList, "a2".toList], [.num 1]⟩)
            = .ok ⟨modifyLast (· ++ f) (⟨["s".toList], []⟩ : SQLStatement).sql ++ rest,
                   (⟨["s".toList], []⟩ : SQLStatement).values
                     ++ (⟨["a1".toList, "a2".toList], [.num 1]⟩ : SQLStatement).values⟩)) :=
  ⟨⟨by rfl, by rfl, by rfl⟩,
   claim_C8 ⟨["s".toList], []⟩ ⟨["a1".toList, "a2".toList], [.num 1]⟩
     ⟨["b1".toList, "b2".toList], [.num 2]⟩ (by rfl) (by rfl) (by rfl)⟩

/-- Counterexample to claim C9 as stated: after constructing a connection
(tracked as id 0) and then calling `close()`, the id is still in
`connectedDatabases` — `close()` does not remove the connection from the
process-wide tracking list (it only calls `end` on the pooled resource). -/
theorem claim_C9_counterexample :
    (databaseClose (databaseConstruct [] 0) ⟨true, false⟩).1 = [0]
    ∧ 0 ∈ (databaseClose (databaseConstruct [] 0) ⟨true, false⟩).1 :=
  ⟨by decide, by decide⟩

/-- Claim C9 (amended): every connection is appended to the process-wide
`connectedDatabases` list when constructed; `close()` releases the pooled
resource if present and is idempotent, but it does NOT remove the
connection from the tracking list (the list is left unchanged). -/
theorem claim_C9 (tracked : List Nat) (dbId : Nat) (pool : ConnectionPool) :
    databaseConstruct tracked dbId = tracked ++ [dbId]
    ∧ dbId ∈ databaseConstruct tracked dbId
    ∧ (databaseClose tracked pool).1 = tracked
    ∧ (databaseClose tracked pool).2.ended = (pool.hasEnd || pool.ended)
    ∧ databaseClose tracked ((databaseClose tracked pool).2)
        = databaseClose tracked pool := by
  obtain ⟨he, en⟩ := pool
  refine ⟨rfl, by simp [databaseConstruct], rfl, ?_, ?_⟩
  · cases he <;> simp [databaseClose]
  · cases he <;> simp [databaseClose]

/-- Counterexample to claim C10 as stated: with last fragment
`F = "abc("`, appending the empty object yields last fragment
`a") VALUES` — the code slices four characters off `F + '"'` (not three)
and the final separator-trim also removes the trailing ` (` of the spliced
`") VALUES (` — not the `ab") VALUES (` the claim describes. -/
theorem claim_C10_counterexample :
    SQLStatement.append ⟨["abc(".toList], []⟩ (.obj [])
      = .ok ⟨["a\") VALUES".toList], []⟩
    ∧ SQLStatement.append ⟨["abc(".toList], []⟩ (.obj [])
      ≠ .ok ⟨["ab\") VALUES (".toList], []⟩ :=
  ⟨by decide, by decide⟩

theorem dropRightN_append (X Y : JSStr) (n : Nat) (h : n ≤ Y.length) :
    dropRightN (X ++ Y) n = X ++ dropRightN Y n := by
  unfold dropRightN
  rw [List.length_append, show X.length + Y.length - n = X.length + (Y.length - n) from by omega]
  exact List.take_append (Y.length - n)

/-- Claim C10 (amended): appending the empty object `{}` in the two legal
object contexts leaves the parameter list unchanged and truncates
pre-existing literal text.  When the last fragment `F` case-insensitively
ends with ` SET `, one quote character is appended and three characters are
sliced off, leaving `F` minus its final two characters.  When `F` ends with
`(`, one quote character is appended, FOUR characters are sliced off, and
`") VALUES (` is appended, whose trailing ` (` is then itself removed by
the final separator trim, leaving `(F + '"')` minus four characters
followed by `") VALUES`. -/
theorem claim_C10 (st : SQLStatement) :
    (st.lastFrag.getLast? = some '(' →
      st.append (.obj [])
        = .ok ⟨modifyLast (fun f => dropRightN (f ++ ['"']) 4 ++ "\") VALUES".toList) st.sql,
               st.values⟩)
    ∧ (isSetSuffix st.lastFrag = true →
      st.append (.obj [])
        = .ok ⟨modifyLast (fun f => dropRightN (f ++ ['"']) 3) st.sql, st.values⟩) := by
  constructor
  · intro hparen
    have hp : (st.lastFrag.getLast? == some '(') = true := beq_iff_eq.mpr hparen
    simp only [SQLStatement.append, hp, if_true, appendParenVals, appendParenKeys,
      SQLStatement.mapLastFrag, SQLStatement.appendRaw]
    refine congrArg Except.ok (congrArg₂ SQLStatement.mk ?_ rfl)
    rw [modifyLast_modifyLast, modifyLast_modifyLast]
    refine modifyLast_congr _ _ ?_ st.sql
    intro x
    have h11 : (2 : Nat) ≤ ("\") VALUES (".toList : JSStr).length := by decide
    rw [dropRightN_append _ _ 2 h11]
    have h12 : dropRightN ("\") VALUES (".toList : JSStr) 2 = "\") VALUES".toList := by decide
    rw [h12]
  · intro hset
    by_cases hp : st.lastFrag.getLast? == some '('
    · exfalso
      have hp' : st.lastFrag.getLast? = some '(' := beq_iff_eq.mp hp
      obtain ⟨t, ht⟩ := List.isSuffixOf_iff_suffix.mp hset
      have hmap : (st.lastFrag.map Char.toUpper).getLast? = some (Char.toUpper '(') := by
        rw [List.getLast?_map, hp']
        rfl
      rw [← ht, show (" SET ".toList : JSStr) = " SET".toList ++ [' '] from rfl,
        ← List.append_assoc, List.getLast?_concat] at hmap
      exact absurd (Option.some.inj hmap) (by decide)
    · simp only [SQLStatement.append, hp, Bool.false_eq_true, if_false, hset, if_true,
        appendSetPairs, SQLStatement.mapLastFrag, SQLStatement.appendRaw]
      refine congrArg Except.ok (congrArg₂ SQLStatement.mk ?_ rfl)
      rw [modifyLast_modifyLast]

/-- Witness for C10 (amended) at concrete statements for both legal
contexts. -/
theorem claim_C10_witness :
    ((⟨["abc(".toList], []⟩ : SQLStatement).lastFrag.getLast? = some '('
      ∧ SQLStatement.append ⟨["abc(".toList], []⟩ (.obj [])
          = .ok ⟨modifyLast (fun f => dropRightN (f ++ ['"']) 4 ++ "\") VALUES".toList)
                  (⟨["abc(".toList], []⟩ : SQLStatement).sql,
                 (⟨["abc(".toList], []⟩ : SQLStatement).values⟩)
    ∧ (isSetSuffix (⟨["x SET ".toList], []⟩ : SQLStatement).lastFrag = true
      ∧ SQLStatement.append ⟨["x SET ".toList], []⟩ (.obj [])
          = .ok ⟨modifyLast (fun f => dropRightN (f ++ ['"']) 3)
                  (⟨["x SET ".toList], []⟩ : SQLStatement).sql,
                 (⟨["x SET ".toList], []⟩ : SQLStatement).values⟩) :=
  ⟨⟨by decide, (claim_C10 ⟨["abc(".toList], []⟩).1 (by decide)⟩,
   ⟨by decide, (claim_C10 ⟨["x SET ".toList], []⟩).2 (by decide)⟩⟩
